import Mathlib

/-!
Verification of the depth-of-search (DoS) numerical core of `DoSFuncs.py`.

The development shallowly embeds the numerical engine over the real numbers:

* `one_DoS_grid_point` / `one_DoS_grid` — the closed-form geometric
  visibility model (`DoSFuncs.one_DoS_grid`), translated pointwise: the
  numpy code operates elementwise through boolean masks, with the
  `smin > a` mask applied last, which is the outermost branch here.
* `binMean` / `one_DoS_bins` — the four-corner bin average
  (`DoSFuncs.one_DoS_bins`).
* `interp1`, `CminRaw`, `expectedCmin`, `DoS_sum` — the per-star
  contrast-curve integrator and aggregator (`DoSFuncs.DoS_sum`), with
  `scipy.integrate.quad` embedded as the interval integral and the
  linear spline `InterpolatedUnivariateSpline(k=1, ext=3)` embedded as
  piecewise-linear interpolation with constant boundary extension.
* `find_ck_star` / `find_ck` — the per-star observation-value metric
  (`DoSFuncs.find_ck`), with the two valid quartic roots embedded as the
  infimum and supremum of the nonnegative real root set of the quartic
  `z^4 - z^3/sqrt k + b^2/(4 k)` solved symbolically in the source.
* `obsFeasible`, `obsObjective`, `IsOptimalSelection` — the 0/1
  time-budgeted selection program solved by `DoSFuncs.select_obs`.
-/

namespace DoS

open Real

noncomputable section

/-- Pointwise translation of `DoSFuncs.one_DoS_grid`.  The source computes,
elementwise on the grid, four (resp. two) bounding-phase contrasts, clips the
inner ones up to `Cmin`, zeroes geometrically infeasible pairs, and scales a
signed sum of square roots; points with `smax < a` use the contained regime,
points with `smax >= a` the extended regime, and points with `smin > a` are
overwritten with zero at the end. -/
def one_DoS_grid_point (a R p smin smax Cmin : ℝ) : ℝ :=
  if smin > a then 0
  else if smax < a then
    let C1 := p * (R / a) ^ 2 * Real.cos (Real.arcsin (smin / a) / 2) ^ 4
    let C2 := p * (R / a) ^ 2 * Real.cos ((Real.pi - Real.arcsin (smin / a)) / 2) ^ 4
    let C3 := p * (R / a) ^ 2 * Real.cos (Real.arcsin (smax / a) / 2) ^ 4
    let C4 := p * (R / a) ^ 2 * Real.cos ((Real.pi - Real.arcsin (smax / a)) / 2) ^ 4
    let C2c := if C2 < Cmin then Cmin else C2
    let C3c := if C3 < Cmin then Cmin else C3
    let C1z := if C3c > C1 then 0 else C1
    let C3z := if C3c > C1 then 0 else C3c
    let C2z := if C2c > C4 then 0 else C2c
    let C4z := if C2c > C4 then 0 else C4
    a / Real.sqrt (p * R ^ 2) *
      (Real.sqrt C4z - Real.sqrt C2z + Real.sqrt C1z - Real.sqrt C3z)
  else
    let C1 := if smin / a < 1 then
        p * (R / a) ^ 2 * Real.cos (Real.arcsin (smin / a) / 2) ^ 4 else 1
    let C2 := if smin / a < 1 then
        p * (R / a) ^ 2 * Real.cos ((Real.pi - Real.arcsin (smin / a)) / 2) ^ 4 else 1
    let C2c := if C2 < Cmin then Cmin else C2
    let C1z := if C2c > C1 then 0 else C1
    let C2z := if C2c > C1 then 0 else C2c
    a / Real.sqrt (p * R ^ 2) * (Real.sqrt C1z - Real.sqrt C2z)

/-- Grid form of `DoSFuncs.one_DoS_grid`: the numpy routine is elementwise on
broadcast arrays `a`, `R`, `Cmin` with scalar `p`, `smin`, `smax`. -/
def one_DoS_grid {N M : ℕ} (a R : Matrix (Fin N) (Fin M) ℝ) (p smin smax : ℝ)
    (Cmin : Matrix (Fin N) (Fin M) ℝ) : Matrix (Fin N) (Fin M) ℝ :=
  Matrix.of fun i j => one_DoS_grid_point (a i j) (R i j) p smin smax (Cmin i j)

/-- Four-corner bin average from `DoSFuncs.one_DoS_bins`:
`f = 0.25*(tmp[:-1,:-1]+tmp[1:,:-1]+tmp[:-1,1:]+tmp[1:,1:])`. -/
def binMean {N M : ℕ} (tmp : Matrix (Fin (N + 1)) (Fin (M + 1)) ℝ) :
    Matrix (Fin N) (Fin M) ℝ :=
  Matrix.of fun i j =>
    0.25 * (tmp i.castSucc j.castSucc + tmp i.succ j.castSucc +
      tmp i.castSucc j.succ + tmp i.succ j.succ)

/-- Translation of `DoSFuncs.one_DoS_bins`: evaluate the grid at the bin-edge
corners, then average the four corners of each bin. -/
def one_DoS_bins {N M : ℕ} (a R : Matrix (Fin (N + 1)) (Fin (M + 1)) ℝ)
    (p smin smax : ℝ) (Cmin : Matrix (Fin (N + 1)) (Fin (M + 1)) ℝ) :
    Matrix (Fin N) (Fin M) ℝ :=
  binMean (one_DoS_grid a R p smin smax Cmin)

end

/-! ### Helper lemmas for the clip/zero/sqrt pair pattern

Both regimes of `one_DoS_grid_point` combine an outer contrast `A` with an
inner contrast `B` clipped up to `c`, zero both when the clipped inner value
exceeds the outer one, and contribute `sqrt` of the outer minus `sqrt` of the
inner. -/

lemma clip_eq_max (B c : ℝ) : (if B < c then c else B) = max c B := by
  by_cases h : B < c
  · simp [h, max_eq_left h.le]
  · simp [h, max_eq_right (not_lt.mp h)]

lemma pair_term_nonneg (A B : ℝ) :
    0 ≤ Real.sqrt (if B > A then 0 else A) - Real.sqrt (if B > A then 0 else B) := by
  by_cases h : B > A
  · simp [h]
  · simp only [h, if_neg, if_false]
    exact sub_nonneg.mpr (Real.sqrt_le_sqrt (not_lt.mp h))

lemma pair_term_antitone (A B c c' : ℝ) (hc : c ≤ c') :
    Real.sqrt (if (if B < c' then c' else B) > A then 0 else A) -
      Real.sqrt (if (if B < c' then c' else B) > A then 0 else
        (if B < c' then c' else B)) ≤
    Real.sqrt (if (if B < c then c else B) > A then 0 else A) -
      Real.sqrt (if (if B < c then c else B) > A then 0 else
        (if B < c then c else B)) := by
  rw [clip_eq_max, clip_eq_max]
  have hm : max c B ≤ max c' B := max_le_max hc le_rfl
  by_cases h1 : max c B > A
  · have h2 : max c' B > A := lt_of_lt_of_le h1 hm
    simp [h1, h2]
  · by_cases h2 : max c' B > A
    · simp only [h1, h2, if_true, if_false]
      rw [Real.sqrt_zero, sub_self]
      exact sub_nonneg.mpr (Real.sqrt_le_sqrt (not_lt.mp h1))
    · simp only [h1, h2, if_false]
      exact sub_le_sub_left (Real.sqrt_le_sqrt hm) _

lemma pair_term_self (A c : ℝ) :
    Real.sqrt (if (if A < c then c else A) > A then 0 else A) -
      Real.sqrt (if (if A < c then c else A) > A then 0 else
        (if A < c then c else A)) = 0 := by
  rw [clip_eq_max]
  by_cases h : max c A > A
  · simp [h]
  · have : max c A = A := le_antisymm (not_lt.mp h) (le_max_right c A)
    simp [h, this]

/-! ### C5: non-negativity of the geometric visibility model -/

lemma one_DoS_grid_point_nonneg (a R p smin smax Cmin : ℝ) (ha : 0 ≤ a) :
    0 ≤ one_DoS_grid_point a R p smin smax Cmin := by
  unfold one_DoS_grid_point
  by_cases h0 : smin > a
  · simp [h0]
  rw [if_neg h0]
  by_cases h1 : smax < a
  · rw [if_pos h1]
    have hf : 0 ≤ a / Real.sqrt (p * R ^ 2) := div_nonneg ha (Real.sqrt_nonneg _)
    refine mul_nonneg hf ?_
    have t1 := pair_term_nonneg
      (p * (R / a) ^ 2 * Real.cos (Real.arcsin (smin / a) / 2) ^ 4)
      (if p * (R / a) ^ 2 * Real.cos (Real.arcsin (smax / a) / 2) ^ 4 < Cmin then Cmin
        else p * (R / a) ^ 2 * Real.cos (Real.arcsin (smax / a) / 2) ^ 4)
    have t2 := pair_term_nonneg
      (p * (R / a) ^ 2 * Real.cos ((Real.pi - Real.arcsin (smax / a)) / 2) ^ 4)
      (if p * (R / a) ^ 2 * Real.cos ((Real.pi - Real.arcsin (smin / a)) / 2) ^ 4 < Cmin
        then Cmin
        else p * (R / a) ^ 2 * Real.cos ((Real.pi - Real.arcsin (smin / a)) / 2) ^ 4)
    linarith
  · rw [if_neg h1]
    have hf : 0 ≤ a / Real.sqrt (p * R ^ 2) := div_nonneg ha (Real.sqrt_nonneg _)
    refine mul_nonneg hf ?_
    exact pair_term_nonneg
      (if smin / a < 1 then
          p * (R / a) ^ 2 * Real.cos (Real.arcsin (smin / a) / 2) ^ 4 else 1)
      (if (if smin / a < 1 then
            p * (R / a) ^ 2 * Real.cos ((Real.pi - Real.arcsin (smin / a)) / 2) ^ 4
          else 1) < Cmin then Cmin
        else if smin / a < 1 then
          p * (R / a) ^ 2 * Real.cos ((Real.pi - Real.arcsin (smin / a)) / 2) ^ 4
        else 1)

lemma one_DoS_grid_point_zero_of_gt (a R p smin smax Cmin : ℝ) (h : smin > a) :
    one_DoS_grid_point a R p smin smax Cmin = 0 := by
  unfold one_DoS_grid_point
  rw [if_pos h]

/-- C5: for positive `a`, `R`, `p` and nonnegative `smin`, `smax`, the
geometric visibility model is nonnegative at every grid point, and zero at
every grid point where `smin > a`. -/
theorem one_DoS_grid_nonneg_and_zero {N M : ℕ}
    (a R : Matrix (Fin N) (Fin M) ℝ) (p smin smax : ℝ)
    (Cmin : Matrix (Fin N) (Fin M) ℝ)
    (ha : ∀ i j, 0 < a i j) (hR : ∀ i j, 0 < R i j) (hp : 0 < p)
    (hsmin : 0 ≤ smin) (hsmax : 0 ≤ smax) :
    (∀ i j, 0 ≤ one_DoS_grid a R p smin smax Cmin i j) ∧
    (∀ i j, smin > a i j → one_DoS_grid a R p smin smax Cmin i j = 0) := by
  constructor
  · intro i j
    exact one_DoS_grid_point_nonneg _ _ _ _ _ _ (ha i j).le
  · intro i j h
    exact one_DoS_grid_point_zero_of_gt _ _ _ _ _ _ h

/-! ### C3: monotonicity in the contrast floor -/

lemma pair2_antitone (A1 B1 A2 B2 c c' : ℝ) (hc : c ≤ c') :
    Real.sqrt (if (if B2 < c' then c' else B2) > A2 then 0 else A2) -
      Real.sqrt (if (if B2 < c' then c' else B2) > A2 then 0 else
        (if B2 < c' then c' else B2)) +
      Real.sqrt (if (if B1 < c' then c' else B1) > A1 then 0 else A1) -
      Real.sqrt (if (if B1 < c' then c' else B1) > A1 then 0 else
        (if B1 < c' then c' else B1)) ≤
    Real.sqrt (if (if B2 < c then c else B2) > A2 then 0 else A2) -
      Real.sqrt (if (if B2 < c then c else B2) > A2 then 0 else
        (if B2 < c then c else B2)) +
      Real.sqrt (if (if B1 < c then c else B1) > A1 then 0 else A1) -
      Real.sqrt (if (if B1 < c then c else B1) > A1 then 0 else
        (if B1 < c then c else B1)) := by
  have h1 := pair_term_antitone A1 B1 c c' hc
  have h2 := pair_term_antitone A2 B2 c c' hc
  linarith

lemma one_DoS_grid_point_antitone_Cmin (a R p smin smax : ℝ) (ha : 0 ≤ a)
    {c c' : ℝ} (hc : c ≤ c') :
    one_DoS_grid_point a R p smin smax c' ≤ one_DoS_grid_point a R p smin smax c := by
  unfold one_DoS_grid_point
  by_cases h0 : smin > a
  · simp [h0]
  rw [if_neg h0, if_neg h0]
  have hf : 0 ≤ a / Real.sqrt (p * R ^ 2) := div_nonneg ha (Real.sqrt_nonneg _)
  by_cases h1 : smax < a
  · rw [if_pos h1, if_pos h1]
    exact mul_le_mul_of_nonneg_left
      (pair2_antitone
        (p * (R / a) ^ 2 * Real.cos (Real.arcsin (smin / a) / 2) ^ 4)
        (p * (R / a) ^ 2 * Real.cos (Real.arcsin (smax / a) / 2) ^ 4)
        (p * (R / a) ^ 2 * Real.cos ((Real.pi - Real.arcsin (smax / a)) / 2) ^ 4)
        (p * (R / a) ^ 2 * Real.cos ((Real.pi - Real.arcsin (smin / a)) / 2) ^ 4)
        c c' hc) hf
  · rw [if_neg h1, if_neg h1]
    exact mul_le_mul_of_nonneg_left
      (pair_term_antitone
        (if smin / a < 1 then
            p * (R / a) ^ 2 * Real.cos (Real.arcsin (smin / a) / 2) ^ 4 else 1)
        (if smin / a < 1 then
            p * (R / a) ^ 2 * Real.cos ((Real.pi - Real.arcsin (smin / a)) / 2) ^ 4
          else 1)
        c c' hc) hf

/-- C3: for a fixed star, raising the contrast floor pointwise can only lower
the geometric visibility model at every grid point. -/
theorem one_DoS_grid_antitone_Cmin {N M : ℕ}
    (a R : Matrix (Fin N) (Fin M) ℝ) (p smin smax : ℝ)
    (Cmin Cmin' : Matrix (Fin N) (Fin M) ℝ)
    (ha : ∀ i j, 0 ≤ a i j) (hmono : ∀ i j, Cmin i j ≤ Cmin' i j) :
    ∀ i j, one_DoS_grid a R p smin smax Cmin' i j ≤
      one_DoS_grid a R p smin smax Cmin i j := fun i j =>
  one_DoS_grid_point_antitone_Cmin _ _ _ _ _ (ha i j) (hmono i j)

/-- Witness for C3 at a concrete instance. -/
theorem one_DoS_grid_antitone_Cmin_witness :
    one_DoS_grid (N := 1) (M := 1) (fun _ _ => 1) (fun _ _ => 1)
        1 (1/2) (3/4) (fun _ _ => 2) 0 0 ≤
      one_DoS_grid (N := 1) (M := 1) (fun _ _ => 1) (fun _ _ => 1)
        1 (1/2) (3/4) (fun _ _ => 1) 0 0 :=
  one_DoS_grid_antitone_Cmin (fun _ _ => 1) (fun _ _ => 1) 1 (1/2) (3/4)
    (fun _ _ => 1) (fun _ _ => 2)
    (fun _ _ => by norm_num) (fun _ _ => by norm_num) 0 0

/-! ### C10: degenerate separation band gives an all-zero grid -/

lemma one_DoS_grid_point_degenerate (a R p s Cmin : ℝ) (ha : 0 < a) :
    one_DoS_grid_point a R p s s Cmin = 0 := by
  unfold one_DoS_grid_point
  by_cases h0 : s > a
  · rw [if_pos h0]
  rw [if_neg h0]
  by_cases h1 : s < a
  · rw [if_pos h1]
    have e1 := pair_term_self
      (p * (R / a) ^ 2 * Real.cos (Real.arcsin (s / a) / 2) ^ 4) Cmin
    have e2 := pair_term_self
      (p * (R / a) ^ 2 * Real.cos ((Real.pi - Real.arcsin (s / a)) / 2) ^ 4) Cmin
    show a / Real.sqrt (p * R ^ 2) *
      (Real.sqrt (if (if p * (R / a) ^ 2 *
            Real.cos ((Real.pi - Real.arcsin (s / a)) / 2) ^ 4 < Cmin then Cmin
          else p * (R / a) ^ 2 * Real.cos ((Real.pi - Real.arcsin (s / a)) / 2) ^ 4) >
            p * (R / a) ^ 2 * Real.cos ((Real.pi - Real.arcsin (s / a)) / 2) ^ 4 then 0
          else p * (R / a) ^ 2 * Real.cos ((Real.pi - Real.arcsin (s / a)) / 2) ^ 4) -
        Real.sqrt (if (if p * (R / a) ^ 2 *
            Real.cos ((Real.pi - Real.arcsin (s / a)) / 2) ^ 4 < Cmin then Cmin
          else p * (R / a) ^ 2 * Real.cos ((Real.pi - Real.arcsin (s / a)) / 2) ^ 4) >
            p * (R / a) ^ 2 * Real.cos ((Real.pi - Real.arcsin (s / a)) / 2) ^ 4 then 0
          else if p * (R / a) ^ 2 *
            Real.cos ((Real.pi - Real.arcsin (s / a)) / 2) ^ 4 < Cmin then Cmin
          else p * (R / a) ^ 2 * Real.cos ((Real.pi - Real.arcsin (s / a)) / 2) ^ 4) +
        Real.sqrt (if (if p * (R / a) ^ 2 *
            Real.cos (Real.arcsin (s / a) / 2) ^ 4 < Cmin then Cmin
          else p * (R / a) ^ 2 * Real.cos (Real.arcsin (s / a) / 2) ^ 4) >
            p * (R / a) ^ 2 * Real.cos (Real.arcsin (s / a) / 2) ^ 4 then 0
          else p * (R / a) ^ 2 * Real.cos (Real.arcsin (s / a) / 2) ^ 4) -
        Real.sqrt (if (if p * (R / a) ^ 2 *
            Real.cos (Real.arcsin (s / a) / 2) ^ 4 < Cmin then Cmin
          else p * (R / a) ^ 2 * Real.cos (Real.arcsin (s / a) / 2) ^ 4) >
            p * (R / a) ^ 2 * Real.cos (Real.arcsin (s / a) / 2) ^ 4 then 0
          else if p * (R / a) ^ 2 *
            Real.cos (Real.arcsin (s / a) / 2) ^ 4 < Cmin then Cmin
          else p * (R / a) ^ 2 * Real.cos (Real.arcsin (s / a) / 2) ^ 4)) = 0
    have hb :
        (Real.sqrt (if (if p * (R / a) ^ 2 *
            Real.cos ((Real.pi - Real.arcsin (s / a)) / 2) ^ 4 < Cmin then Cmin
          else p * (R / a) ^ 2 * Real.cos ((Real.pi - Real.arcsin (s / a)) / 2) ^ 4) >
            p * (R / a) ^ 2 * Real.cos ((Real.pi - Real.arcsin (s / a)) / 2) ^ 4 then 0
          else p * (R / a) ^ 2 * Real.cos ((Real.pi - Real.arcsin (s / a)) / 2) ^ 4) -
        Real.sqrt (if (if p * (R / a) ^ 2 *
            Real.cos ((Real.pi - Real.arcsin (s / a)) / 2) ^ 4 < Cmin then Cmin
          else p * (R / a) ^ 2 * Real.cos ((Real.pi - Real.arcsin (s / a)) / 2) ^ 4) >
            p * (R / a) ^ 2 * Real.cos ((Real.pi - Real.arcsin (s / a)) / 2) ^ 4 then 0
          else if p * (R / a) ^ 2 *
            Real.cos ((Real.pi - Real.arcsin (s / a)) / 2) ^ 4 < Cmin then Cmin
          else p * (R / a) ^ 2 * Real.cos ((Real.pi - Real.arcsin (s / a)) / 2) ^ 4) +
        Real.sqrt (if (if p * (R / a) ^ 2 *
            Real.cos (Real.arcsin (s / a) / 2) ^ 4 < Cmin then Cmin
          else p * (R / a) ^ 2 * Real.cos (Real.arcsin (s / a) / 2) ^ 4) >
            p * (R / a) ^ 2 * Real.cos (Real.arcsin (s / a) / 2) ^ 4 then 0
          else p * (R / a) ^ 2 * Real.cos (Real.arcsin (s / a) / 2) ^ 4) -
        Real.sqrt (if (if p * (R / a) ^ 2 *
            Real.cos (Real.arcsin (s / a) / 2) ^ 4 < Cmin then Cmin
          else p * (R / a) ^ 2 * Real.cos (Real.arcsin (s / a) / 2) ^ 4) >
            p * (R / a) ^ 2 * Real.cos (Real.arcsin (s / a) / 2) ^ 4 then 0
          else if p * (R / a) ^ 2 *
            Real.cos (Real.arcsin (s / a) / 2) ^ 4 < Cmin then Cmin
          else p * (R / a) ^ 2 * Real.cos (Real.arcsin (s / a) / 2) ^ 4)) = 0 := by
      linarith
    rw [hb, mul_zero]
  · rw [if_neg h1]
    have heq : s = a := le_antisymm (not_lt.mp h0) (not_lt.mp h1)
    have hcond : ¬ (s / a < 1) := by
      rw [heq, div_self (ne_of_gt ha)]
      exact lt_irrefl 1
    simp only [if_neg hcond]
    have hb := pair_term_self (1 : ℝ) Cmin
    rw [hb, mul_zero]

/-- C10: for a star with degenerate separation band `smin = smax` and
positive `a`, `R`, `p`, `Cmin` inputs, the geometric visibility model is
zero at every grid point. -/
theorem one_DoS_grid_degenerate_band {N M : ℕ}
    (a R : Matrix (Fin N) (Fin M) ℝ) (p s : ℝ)
    (Cmin : Matrix (Fin N) (Fin M) ℝ)
    (ha : ∀ i j, 0 < a i j) (hR : ∀ i j, 0 < R i j) (hp : 0 < p)
    (hCmin : ∀ i j, 0 < Cmin i j) :
    ∀ i j, one_DoS_grid a R p s s Cmin i j = 0 := fun i j =>
  one_DoS_grid_point_degenerate _ _ _ _ _ (ha i j)

/-- Witness for C10 at a concrete instance. -/
theorem one_DoS_grid_degenerate_band_witness :
    one_DoS_grid (N := 1) (M := 1) (fun _ _ => 2) (fun _ _ => 1)
      (1/2) (3/4) (3/4) (fun _ _ => 1/10) 0 0 = 0 :=
  one_DoS_grid_degenerate_band (fun _ _ => 2) (fun _ _ => 1) (1/2) (3/4)
    (fun _ _ => 1/10)
    (fun _ _ => by norm_num) (fun _ _ => by norm_num) (by norm_num)
    (fun _ _ => by norm_num) 0 0

/-! ### C6: the bin integrator is the four-corner arithmetic mean -/

/-- C6: on a corner grid of shape `(N+1, M+1)` the bin integrator returns the
shape-`(N, M)` array whose entry `(i, j)` is exactly the arithmetic mean of the
four corner values of bin `(i, j)`; `one_DoS_bins` is this average applied to
the visibility grid. -/
theorem one_DoS_bins_is_corner_mean {N M : ℕ} :
    (∀ (tmp : Matrix (Fin (N + 1)) (Fin (M + 1)) ℝ) (i : Fin N) (j : Fin M),
      binMean tmp i j = (tmp i.castSucc j.castSucc + tmp i.succ j.castSucc +
        tmp i.castSucc j.succ + tmp i.succ j.succ) / 4) ∧
    (∀ (a R : Matrix (Fin (N + 1)) (Fin (M + 1)) ℝ) (p smin smax : ℝ)
      (Cmin : Matrix (Fin (N + 1)) (Fin (M + 1)) ℝ) (i : Fin N) (j : Fin M),
      one_DoS_bins a R p smin smax Cmin i j =
        (one_DoS_grid a R p smin smax Cmin i.castSucc j.castSucc +
          one_DoS_grid a R p smin smax Cmin i.succ j.castSucc +
          one_DoS_grid a R p smin smax Cmin i.castSucc j.succ +
          one_DoS_grid a R p smin smax Cmin i.succ j.succ) / 4) := by
  constructor
  · intro tmp i j
    show 0.25 * (tmp i.castSucc j.castSucc + tmp i.succ j.castSucc +
      tmp i.castSucc j.succ + tmp i.succ j.succ) = _
    ring
  · intro a R p smin smax Cmin i j
    show 0.25 * (one_DoS_grid a R p smin smax Cmin i.castSucc j.castSucc + _ + _ + _) = _
    ring

/-- Witness for C5 at a concrete instance. -/
theorem one_DoS_grid_nonneg_and_zero_witness :
    (∀ i j, 0 ≤ one_DoS_grid (N := 1) (M := 1) (fun _ _ => 1) (fun _ _ => 1)
      1 (1/2) (3/4) (fun _ _ => 1/10) i j) ∧
    (∀ i j, (1/2 : ℝ) > (fun _ _ => (1 : ℝ)) i j →
      one_DoS_grid (N := 1) (M := 1) (fun _ _ => 1) (fun _ _ => 1)
        1 (1/2) (3/4) (fun _ _ => 1/10) i j = 0) :=
  one_DoS_grid_nonneg_and_zero (fun _ _ => 1) (fun _ _ => 1) 1 (1/2) (3/4)
    (fun _ _ => 1/10)
    (fun _ _ => one_pos) (fun _ _ => one_pos) one_pos (by norm_num) (by norm_num)

/-! ### Star selection (`DoSFuncs.select_obs`)

The source delegates to the external CBC mixed-integer solver: one 0/1
variable per star, the single budget constraint `sum x_i*t0_i <= maxTime`,
objective `max sum x_i*ck_i`, and it returns the indices with solution value
`> 0`.  The solver itself is outside the repository; following the spec, a
selection is modelled as a subset of star indices and `select_obs`'s output as
a feasible subset of maximal total `ck`.  Rationals are used so the concrete
instances are decidable. -/

/-- Feasibility of a selected subset: the budget constraint
`sum x_i*t0_i <= maxTime` of `DoSFuncs.select_obs`. -/
def obsFeasible {n : ℕ} (t0 : Fin n → ℚ) (maxTime : ℚ) (S : Finset (Fin n)) : Prop :=
  ∑ i ∈ S, t0 i ≤ maxTime

instance {n : ℕ} (t0 : Fin n → ℚ) (maxTime : ℚ) (S : Finset (Fin n)) :
    Decidable (obsFeasible t0 maxTime S) := by
  unfold obsFeasible; infer_instance

/-- Objective of a selected subset: `sum x_i*ck_i` of `DoSFuncs.select_obs`. -/
def obsObjective {n : ℕ} (ck : Fin n → ℚ) (S : Finset (Fin n)) : ℚ :=
  ∑ i ∈ S, ck i

/-- An optimal selection: feasible, and of maximal objective among feasible
subsets.  This is the contract of the exact branch-and-bound solve performed
by `DoSFuncs.select_obs`. -/
def IsOptimalSelection {n : ℕ} (t0 : Fin n → ℚ) (maxTime : ℚ) (ck : Fin n → ℚ)
    (S : Finset (Fin n)) : Prop :=
  obsFeasible t0 maxTime S ∧
    ∀ T : Finset (Fin n), obsFeasible t0 maxTime T →
      obsObjective ck T ≤ obsObjective ck S

instance {n : ℕ} (t0 : Fin n → ℚ) (maxTime : ℚ) (ck : Fin n → ℚ)
    (S : Finset (Fin n)) : Decidable (IsOptimalSelection t0 maxTime ck S) := by
  unfold IsOptimalSelection; infer_instance

/-- C2 counterexample: on the spec's 3-star instance `t0 = [10, 20, 15]`,
`ck = [5, 8, 6]`, `maxTime = 30`, the set `{0, 2}` is not optimal and its
objective is not 14 (it is 5 + 6 = 11, and `{0, 1}` is feasible with 13). -/
theorem select_obs_instance_counterexample :
    ¬ (IsOptimalSelection ![10, 20, 15] 30 ![5, 8, 6] {0, 2} ∧
      obsObjective ![5, 8, 6] ({0, 2} : Finset (Fin 3)) = 14) := by
  rintro ⟨⟨-, hopt⟩, -⟩
  have h01 : obsFeasible ![10, 20, 15] 30 ({0, 1} : Finset (Fin 3)) := by
    norm_num [obsFeasible, Finset.sum_insert, Finset.sum_singleton]
  have h := hopt {0, 1} h01
  have hne : (0 : Fin 3) ≠ 2 := by decide
  norm_num [obsObjective, Finset.sum_insert, Finset.sum_singleton,
    Finset.sum_pair hne] at h

/-- C2 amended: on the 3-star instance `t0 = [10, 20, 15]`, `ck = [5, 8, 6]`,
`maxTime = 30`, the unique optimal selection is `{0, 1}` with objective 13
and total time 30. -/
theorem select_obs_instance_amended :
    IsOptimalSelection ![10, 20, 15] 30 ![5, 8, 6] {0, 1} ∧
    obsObjective ![5, 8, 6] ({0, 1} : Finset (Fin 3)) = 13 ∧
    (∑ i ∈ ({0, 1} : Finset (Fin 3)), (![10, 20, 15] : Fin 3 → ℚ) i) = 30 ∧
    ∀ S : Finset (Fin 3), IsOptimalSelection ![10, 20, 15] 30 ![5, 8, 6] S →
      S = {0, 1} := by
  have h01 : obsFeasible ![10, 20, 15] 30 ({0, 1} : Finset (Fin 3)) := by
    norm_num [obsFeasible, Finset.sum_insert, Finset.sum_singleton]
  refine ⟨⟨h01, ?_⟩, ?_, ?_, ?_⟩
  · intro T hT
    fin_cases T <;>
      norm_num [obsFeasible, obsObjective, Finset.sum_insert,
        Finset.sum_singleton] at hT ⊢
  · norm_num [obsObjective, Finset.sum_insert, Finset.sum_singleton]
  · norm_num [Finset.sum_insert, Finset.sum_singleton]
  · rintro S ⟨hfeas, hopt⟩
    have h := hopt {0, 1} h01
    fin_cases S <;>
      norm_num [obsFeasible, obsObjective, Finset.sum_insert,
        Finset.sum_singleton] at hfeas h ⊢ <;> decide

/-- C8: when every star's integration time exceeds the (nonnegative) budget,
the empty set is an optimal selection with objective 0, and indeed the only
feasible selection. -/
theorem select_obs_all_over_budget {n : ℕ} (t0 ck : Fin n → ℚ) (maxTime : ℚ)
    (h0 : 0 ≤ maxTime) (h : ∀ i, maxTime < t0 i) :
    IsOptimalSelection t0 maxTime ck ∅ ∧ obsObjective ck ∅ = 0 ∧
      ∀ S : Finset (Fin n), obsFeasible t0 maxTime S → S = ∅ := by
  have honly : ∀ S : Finset (Fin n), obsFeasible t0 maxTime S → S = ∅ := by
    intro S hS
    by_contra hne
    obtain ⟨i, hi⟩ := Finset.nonempty_iff_ne_empty.mpr hne
    have hle : t0 i ≤ ∑ j ∈ S, t0 j :=
      Finset.single_le_sum (fun j _ => (h0.trans_lt (h j)).le) hi
    exact absurd (hle.trans hS) (not_le.mpr (h i))
  refine ⟨⟨?_, ?_⟩, rfl, honly⟩
  · show (0 : ℚ) ≤ maxTime
    simpa using h0
  · intro T hT
    rw [honly T hT]

/-- Witness for C8 at a concrete instance. -/
theorem select_obs_all_over_budget_witness :
    IsOptimalSelection ![1, 2] 0 ![5, 7] ∅ ∧ obsObjective ![5, 7] ∅ = 0 ∧
      ∀ S : Finset (Fin 2), obsFeasible ![1, 2] 0 S → S = ∅ :=
  select_obs_all_over_budget ![1, 2] ![5, 7] 0 le_rfl
    (by intro i; fin_cases i <;> norm_num)

/-! ### Per-star contrast-curve integration (`DoSFuncs.DoS_sum`) -/

noncomputable section

/-- Helper for `interp1`: scan the remaining nodes for the segment containing
`x`, falling back to the last node's value beyond the right end. -/
def interp1Go : ℝ → ℝ → List (ℝ × ℝ) → ℝ → ℝ
  | _, y0, [], _ => y0
  | x0, y0, (x1, y1) :: rest, x =>
    if x ≤ x1 then y0 + (y1 - y0) * (x - x0) / (x1 - x0)
    else interp1Go x1 y1 rest x

/-- Piecewise-linear interpolant with constant boundary extension: the
embedding of `scipy.interpolate.InterpolatedUnivariateSpline(WA, C_inst[i],
k=1, ext=3)` built in `DoSFuncs.DoS_sum` (`k=1`: the linear spline through the
nodes; `ext=3`: return the boundary value outside the node range). -/
def interp1 : List (ℝ × ℝ) → ℝ → ℝ
  | [], _ => 0
  | (x0, y0) :: rest, x => if x ≤ x0 then y0 else interp1Go x0 y0 rest x

/-- Star inputs consumed by `DoSFuncs.DoS_sum` for one star: separation
bounds, distance, and its row of the instrument-contrast array. -/
structure StarData where
  smin : ℝ
  smax : ℝ
  dist : ℝ
  Cinst : List ℝ

/-- The expected-minimum-contrast computation of `DoSFuncs.DoS_sum` for one
semi-major-axis sample `a` (lines 433-445), with `scipy.integrate.quad`
embedded as an interval integral and real division totalized the Lean way
(`x / 0 = 0`).  `expectedCmin` is the variant instrumenting the division. -/
def CminRaw (WA : List ℝ) (st : StarData) (a : ℝ) : ℝ :=
  if a < st.smin then 1
  else
    let su := if a > st.smax then st.smax else a
    let tup := Real.sqrt (1 - (st.smin / a) ^ 2)
    let tlow := Real.sqrt (1 - (su / a) ^ 2)
    (∫ t in tlow..tup,
      interp1 (WA.zip st.Cinst) (a * Real.sqrt (1 - t ^ 2) / st.dist)) /
      (tup - tlow)

/-- The same computation with the fallible float division made explicit: the
source divides the quadrature value by `tup - tlow`, which is `0/0 = NaN`
when the integration interval has zero width; that outcome is `none` here. -/
def expectedCmin (WA : List ℝ) (st : StarData) (a : ℝ) : Option ℝ :=
  if a < st.smin then some 1
  else
    let su := if a > st.smax then st.smax else a
    let tup := Real.sqrt (1 - (st.smin / a) ^ 2)
    let tlow := Real.sqrt (1 - (su / a) ^ 2)
    if tup - tlow = 0 then none
    else some ((∫ t in tlow..tup,
      interp1 (WA.zip st.Cinst) (a * Real.sqrt (1 - t ^ 2) / st.dist)) /
      (tup - tlow))

/-- One star's bin-grid contribution in `DoSFuncs.DoS_sum`: build the per-`a`
expected contrast vector, broadcast it against the radius edges
(`CC, RR = np.meshgrid(Cmin, R)`), and run `one_DoS_bins` on the meshgrid of
the bin edges. -/
def starContribution {N M : ℕ} (aedges : Fin (M + 1) → ℝ)
    (Redges : Fin (N + 1) → ℝ) (pexp : ℝ) (WA : List ℝ) (st : StarData) :
    Matrix (Fin N) (Fin M) ℝ :=
  one_DoS_bins (Matrix.of fun _ j => aedges j) (Matrix.of fun i _ => Redges i)
    pexp st.smin st.smax (Matrix.of fun _ j => CminRaw WA st (aedges j))

/-- Translation of `DoSFuncs.DoS_sum`: start from
`DoS = np.zeros((aa.shape[0]-1, aa.shape[1]-1))` and add each star's bin
contribution in turn. -/
def DoS_sum {N M : ℕ} (aedges : Fin (M + 1) → ℝ) (Redges : Fin (N + 1) → ℝ)
    (pexp : ℝ) (WA : List ℝ) (stars : List StarData) :
    Matrix (Fin N) (Fin M) ℝ :=
  (stars.map (starContribution aedges Redges pexp WA)).foldl (· + ·) 0

end

/-! ### C9: the aggregator on an empty star list -/

/-- C9: running `DoS_sum` over an empty star list returns the all-zero grid
of the configured bin shape `(aa.shape[0]-1, aa.shape[1]-1)`. -/
theorem DoS_sum_empty {N M : ℕ} (aedges : Fin (M + 1) → ℝ)
    (Redges : Fin (N + 1) → ℝ) (pexp : ℝ) (WA : List ℝ) :
    DoS_sum (N := N) (M := M) aedges Redges pexp WA [] = 0 ∧
    ∀ i j, DoS_sum (N := N) (M := M) aedges Redges pexp WA [] i j = 0 := by
  constructor
  · rfl
  · intro i j
    rfl

/-! ### C4: definedness of the per-star expected minimum contrast -/

lemma interp1Go_right (x0 y0 : ℝ) (rest : List (ℝ × ℝ)) (x : ℝ)
    (h : ∀ p ∈ rest, p.1 < x) :
    interp1Go x0 y0 rest x = (((x0, y0) :: rest).getLast (List.cons_ne_nil _ _)).2 := by
  induction rest generalizing x0 y0 with
  | nil => rfl
  | cons p rest ih =>
    obtain ⟨x1, y1⟩ := p
    have hx1 : x1 < x := h (x1, y1) (List.mem_cons_self _ _)
    show (if x ≤ x1 then _ else interp1Go x1 y1 rest x) = _
    rw [if_neg (not_le.mpr hx1)]
    rw [ih x1 y1 (fun p hp => h p (List.mem_cons_of_mem _ hp))]
    rfl

lemma expectedCmin_zero_width_iff (WA : List ℝ) (st : StarData) (a : ℝ)
    (hsmin : 0 < st.smin) (hss : st.smin ≤ st.smax) (ha : 0 < a)
    (hge : st.smin ≤ a) :
    Real.sqrt (1 - (st.smin / a) ^ 2) -
      Real.sqrt (1 - ((if a > st.smax then st.smax else a) / a) ^ 2) = 0 ↔
    st.smin = min a st.smax := by
  have hsu_eq : (if a > st.smax then st.smax else a) = min a st.smax := by
    by_cases h : a > st.smax
    · rw [if_pos h, min_eq_right h.le]
    · rw [if_neg h, min_eq_left (not_lt.mp h)]
  rw [hsu_eq]
  have hsu_pos : 0 < min a st.smax := lt_min ha (hsmin.trans_le hss)
  have hsu_le : min a st.smax ≤ a := min_le_left _ _
  have h1 : 0 ≤ 1 - (st.smin / a) ^ 2 := by
    have : st.smin / a ≤ 1 := (div_le_one ha).mpr hge
    have h0 : 0 ≤ st.smin / a := div_nonneg hsmin.le ha.le
    nlinarith
  have h2 : 0 ≤ 1 - (min a st.smax / a) ^ 2 := by
    have : min a st.smax / a ≤ 1 := (div_le_one ha).mpr hsu_le
    have h0 : 0 ≤ min a st.smax / a := div_nonneg hsu_pos.le ha.le
    nlinarith
  rw [sub_eq_zero, Real.sqrt_inj h1 h2]
  constructor
  · intro h
    have hsq : (st.smin / a) ^ 2 = (min a st.smax / a) ^ 2 := by linarith
    have hane : a ≠ 0 := ne_of_gt ha
    field_simp [hane] at hsq
    exact hsq
  · intro h
    rw [h]

/-- C4 amended: the interpolant clamps to the boundary node value outside the
node range; `a < smin` yields the sentinel value `some 1`; but the zero-width
integration interval is not guarded: the expectation is defined exactly when
`a < smin` or `smin < min a smax`, and is the undefined `0/0` when
`smin = min a smax` (e.g. `a = smin <= smax`). -/
theorem expectedCmin_amended :
    (∀ (x0 y0 x : ℝ) (rest : List (ℝ × ℝ)), x ≤ x0 →
      interp1 ((x0, y0) :: rest) x = y0) ∧
    (∀ (x0 y0 x : ℝ) (rest : List (ℝ × ℝ)), (∀ p ∈ (x0, y0) :: rest, p.1 < x) →
      interp1 ((x0, y0) :: rest) x =
        (((x0, y0) :: rest).getLast (List.cons_ne_nil _ _)).2) ∧
    (∀ (WA : List ℝ) (st : StarData) (a : ℝ), a < st.smin →
      expectedCmin WA st a = some 1) ∧
    (∀ (WA : List ℝ) (st : StarData) (a : ℝ), 0 < st.smin →
      st.smin ≤ st.smax → 0 < a →
      ((expectedCmin WA st a).isSome ↔
        (a < st.smin ∨ st.smin < min a st.smax))) := by
  refine ⟨?_, ?_, ?_, ?_⟩
  · intro x0 y0 x rest hx
    show (if x ≤ x0 then y0 else _) = y0
    rw [if_pos hx]
  · intro x0 y0 x rest h
    have hx0 : x0 < x := h (x0, y0) (List.mem_cons_self _ _)
    show (if x ≤ x0 then y0 else interp1Go x0 y0 rest x) = _
    rw [if_neg (not_le.mpr hx0)]
    exact interp1Go_right x0 y0 rest x (fun p hp => h p (List.mem_cons_of_mem _ hp))
  · intro WA st a hlt
    unfold expectedCmin
    rw [if_pos hlt]
  · intro WA st a hsmin hss ha
    unfold expectedCmin
    by_cases hlt : a < st.smin
    · simp [hlt]
    rw [if_neg hlt]
    have hge : st.smin ≤ a := not_lt.mp hlt
    have hiff := expectedCmin_zero_width_iff WA st a hsmin hss ha hge
    by_cases hz : Real.sqrt (1 - (st.smin / a) ^ 2) -
        Real.sqrt (1 - ((if a > st.smax then st.smax else a) / a) ^ 2) = 0
    · rw [if_pos hz]
      simp only [Option.isSome_none, Bool.false_eq_true, false_iff]
      push_neg
      refine ⟨hge, ?_⟩
      rw [hiff.mp hz]
    · rw [if_neg hz]
      simp only [Option.isSome_some, true_iff]
      right
      rcases lt_or_eq_of_le (le_min hge hss) with h | h
      · exact h
      · exact absurd (hiff.mpr h) hz

/-- C4 counterexample to the claim as stated: at `a = smin = 1`,
`smax = 2 >= a`, the integration interval is `[0, 0]` and the source's
normalized expectation is the undefined `0/0`, not a defined value. -/
theorem expectedCmin_counterexample :
    expectedCmin [0, 1] ⟨1, 2, 1, [1, 1]⟩ 1 = none := by
  unfold expectedCmin
  norm_num

/-- Witness for C4's amended theorem at concrete inputs. -/
theorem expectedCmin_amended_witness :
    interp1 [((0 : ℝ), (5 : ℝ)), (1, 7)] (-1) = 5 ∧
    interp1 [((0 : ℝ), (5 : ℝ)), (1, 7)] 2 =
      (([((0 : ℝ), (5 : ℝ)), (1, 7)]).getLast (List.cons_ne_nil _ _)).2 ∧
    expectedCmin [0, 1] ⟨1, 2, 1, [1, 1]⟩ (1/2) = some 1 ∧
    ((expectedCmin [0, 1] ⟨1, 2, 1, [1, 1]⟩ (1/2)).isSome ↔
      ((1/2 : ℝ) < 1 ∨ (1 : ℝ) < min (1/2) 2)) :=
  ⟨expectedCmin_amended.1 0 5 (-1) [(1, 7)] (by norm_num),
   expectedCmin_amended.2.1 0 5 2 [(1, 7)] (by
     intro p hp
     simp only [List.mem_cons, List.mem_singleton] at hp
     rcases hp with rfl | rfl | h
     · norm_num
     · norm_num
     · exact absurd h (List.not_mem_nil p)),
   expectedCmin_amended.2.2.1 [0, 1] ⟨1, 2, 1, [1, 1]⟩ (1/2) (by norm_num),
   expectedCmin_amended.2.2.2 [0, 1] ⟨1, 2, 1, [1, 1]⟩ (1/2) (by norm_num)
     (by norm_num) (by norm_num)⟩

/-! ### C7: the post-`find_ck` offset (`__init__`:
`ck += ck[ck>0.0].min()*1e-2`) -/

noncomputable section

/-- The ck array after the offset applied in `DoSFuncs.__init__`: each entry
is raised by 1% of the minimum strictly-positive entry.  The nonemptiness
hypothesis reflects that the source's `ck[ck>0.0].min()` crashes when no entry
is positive. -/
def ckWithOffset {n : ℕ} (ck : Fin n → ℝ)
    (h : (Finset.univ.filter fun i => 0 < ck i).Nonempty) : Fin n → ℝ :=
  fun i => ck i + (Finset.univ.filter fun i => 0 < ck i).inf' h ck * 1e-2

end

/-- C7: if the (nonnegative) ck array has at least one positive entry, then
after the 1% offset every entry is strictly positive, and no originally
positive star ends below any originally zero star. -/
theorem ckWithOffset_properties {n : ℕ} (ck : Fin n → ℝ)
    (h : (Finset.univ.filter fun i => 0 < ck i).Nonempty)
    (hnn : ∀ i, 0 ≤ ck i) :
    (∀ i, 0 < ckWithOffset ck h i) ∧
    (∀ i j, 0 < ck i → ck j = 0 → ckWithOffset ck h j ≤ ckWithOffset ck h i) := by
  have hm : 0 < (Finset.univ.filter fun i => 0 < ck i).inf' h ck := by
    obtain ⟨i, hi, heq⟩ := Finset.exists_mem_eq_inf' h ck
    rw [heq]
    exact (Finset.mem_filter.mp hi).2
  constructor
  · intro i
    have : (0 : ℝ) < (Finset.univ.filter fun i => 0 < ck i).inf' h ck * 1e-2 := by
      positivity
    unfold ckWithOffset
    have := hnn i
    linarith
  · intro i j hi hj
    unfold ckWithOffset
    rw [hj]
    linarith

/-- Witness for C7 at a concrete instance. -/
theorem ckWithOffset_properties_witness :
    (∀ i, 0 < ckWithOffset (fun _ : Fin 1 => 1)
      ⟨0, Finset.mem_filter.mpr ⟨Finset.mem_univ _, one_pos⟩⟩ i) ∧
    (∀ i j, 0 < (fun _ : Fin 1 => (1 : ℝ)) i → (fun _ : Fin 1 => (1 : ℝ)) j = 0 →
      ckWithOffset (fun _ : Fin 1 => 1)
        ⟨0, Finset.mem_filter.mpr ⟨Finset.mem_univ _, one_pos⟩⟩ j ≤
      ckWithOffset (fun _ : Fin 1 => 1)
        ⟨0, Finset.mem_filter.mpr ⟨Finset.mem_univ _, one_pos⟩⟩ i) :=
  ckWithOffset_properties (fun _ : Fin 1 => 1)
    ⟨0, Finset.mem_filter.mpr ⟨Finset.mem_univ _, one_pos⟩⟩ (fun _ => zero_le_one)

/-! ### The observation-value metric `DoSFuncs.find_ck`

The source symbolically solves `z**4 - z**3/sqrt(k) + b**2/(4*k) = 0` once
(sympy), keeps the two physically valid roots (`sol[2]`, `sol[3]`, used as the
lower and upper bound functions `al`/`au` of the piecewise integration), and
integrates one of two breakpoint orderings with `scipy.integrate.quad`.  The
two valid roots are the two nonnegative real roots of the quartic, embedded
below as the infimum and supremum of its nonnegative real root set, and the
quadratures are embedded as interval integrals. -/

noncomputable section

/-- The quartic `z^4 - z^3/sqrt(k) + b^2/(4*k)` solved symbolically in
`DoSFuncs.find_ck`. -/
def quartic (k b z : ℝ) : ℝ := z ^ 4 - z ^ 3 / Real.sqrt k + b ^ 2 / (4 * k)

/-- The nonnegative real roots of the quartic. -/
def rootSet (k b : ℝ) : Set ℝ := {z : ℝ | 0 ≤ z ∧ quartic k b z = 0}

/-- The lower valid root (`sol[2]` in the source, used as the lower
integration bound `al`). -/
def sol3 (k b : ℝ) : ℝ := sInf (rootSet k b)

/-- The upper valid root (`sol[3]` in the source, used as the upper
integration bound `au`). -/
def sol4 (k b : ℝ) : ℝ := sSup (rootSet k b)

/-- Breakpoint `k1 = cos(0.5*(pi - arcsin(smin/amax)))**4/amax**2`. -/
def kk1 (amax smin : ℝ) : ℝ :=
  Real.cos (0.5 * (Real.pi - Real.arcsin (smin / amax))) ^ 4 / amax ^ 2

/-- Breakpoint `k2 = cos(0.5*(pi - arcsin(smax/amax)))**4/amax**2`. -/
def kk2 (amax smax : ℝ) : ℝ :=
  Real.cos (0.5 * (Real.pi - Real.arcsin (smax / amax))) ^ 4 / amax ^ 2

/-- Breakpoint `k3 = cos(0.5*arcsin(smax/amax))**4/amax**2`. -/
def kk3 (amax smax : ℝ) : ℝ :=
  Real.cos (0.5 * Real.arcsin (smax / amax)) ^ 4 / amax ^ 2

/-- Breakpoint `k4 = 27/64*smax**(-2)`. -/
def kk4 (smax : ℝ) : ℝ := 27 / 64 * (smax ^ 2)⁻¹

/-- Breakpoint `k5 = cos(0.5*arcsin(smin/amax))**4/amax**2`. -/
def kk5 (amax smin : ℝ) : ℝ :=
  Real.cos (0.5 * Real.arcsin (smin / amax)) ^ 4 / amax ^ 2

/-- Breakpoint `k6 = 27/64*smin**(-2)`. -/
def kk6 (smin : ℝ) : ℝ := 27 / 64 * (smin ^ 2)⁻¹

/-- The log-uniform normalization `an = 1/log(amax/amin)` of
`DoSFuncs.find_ck`. -/
def anVal (amin amax : ℝ) : ℝ := 1 / Real.log (amax / amin)

/-- The per-star normalization
`cg = an*(sqrt(1-(smax/amax)^2) - sqrt(1-(smin/amax)^2)
+ log(smax/(sqrt(1-(smax/amax)^2)+1)) - log(smin/(sqrt(1-(smin/amax)^2)+1)))`
of `DoSFuncs.find_ck`. -/
def cgVal (amin amax smin smax : ℝ) : ℝ :=
  anVal amin amax * (Real.sqrt (1 - (smax / amax) ^ 2) -
    Real.sqrt (1 - (smin / amax) ^ 2) +
    Real.log (smax / (Real.sqrt (1 - (smax / amax) ^ 2) + 1)) -
    Real.log (smin / (Real.sqrt (1 - (smin / amax) ^ 2) + 1)))

/-- The integrand prefactor `anp = an/cg` of `DoSFuncs.find_ck`. -/
def anpVal (amin amax smin smax : ℝ) : ℝ :=
  anVal amin amax / cgVal amin amax smin smax

/-- Per-star translation of the `DoSFuncs.find_ck` loop body: the log-uniform
normalization `an`/`cg`/`anp`, the six breakpoints, the eight piecewise
integrands built from the quartic roots, and the two cascaded breakpoint
orderings selected by `k4 < k5`, starting integration at the first breakpoint
at or above `kmin = Cmin/(pexp*Rexp**2)`. -/
def find_ck_star (amin amax smin smax Cmin pexp Rexp : ℝ) : ℝ :=
  let anp := anpVal amin amax smin smax
  let k1 := kk1 amax smin
  let k2 := kk2 amax smax
  let k3 := kk3 amax smax
  let k4 := kk4 smax
  let k5 := kk5 amax smin
  let k6 := kk6 smin
  let kmin := Cmin / (pexp * Rexp ^ 2)
  if smin = smax then 0
  else
    let al1 := fun k => sol3 k smin
    let au1 := fun k => sol4 k smin
    let au2 := fun k => sol3 k smax
    let al2 := fun k => sol4 k smax
    let f12 := fun k => anp / (2 * Real.sqrt k) * (amax - al1 k)
    let f23 := fun k => anp / (2 * Real.sqrt k) * (au2 k - al1 k)
    let f34 := fun k => anp / (2 * Real.sqrt k) * (amax - al2 k + au2 k - al1 k)
    let f45 := fun k => anp / (2 * Real.sqrt k) * (amax - al1 k)
    let f56 := fun k => anp / (2 * Real.sqrt k) * (au1 k - al1 k)
    let f35 := fun k => anp / (2 * Real.sqrt k) * (amax - al2 k + au2 k - al1 k)
    let f54 := fun k => anp / (2 * Real.sqrt k) * (au1 k - al2 k + au2 k - al1 k)
    let f46 := fun k => anp / (2 * Real.sqrt k) * (au1 k - al1 k)
    if k4 < k5 then
      if kmin < k1 then
        (∫ k in k1..k2, f12 k) + (if k2 ≠ k3 then ∫ k in k2..k3, f23 k else 0) +
          (∫ k in k3..k4, f34 k) + (∫ k in k4..k5, f45 k) + (∫ k in k5..k6, f56 k)
      else if kmin > k1 ∧ kmin < k2 then
        (∫ k in kmin..k2, f12 k) + (if k2 ≠ k3 then ∫ k in k2..k3, f23 k else 0) +
          (∫ k in k3..k4, f34 k) + (∫ k in k4..k5, f45 k) + (∫ k in k5..k6, f56 k)
      else if kmin > k2 ∧ kmin < k3 then
        (∫ k in kmin..k3, f23 k) + (∫ k in k3..k4, f34 k) +
          (∫ k in k4..k5, f45 k) + (∫ k in k5..k6, f56 k)
      else if kmin > k3 ∧ kmin < k4 then
        (∫ k in kmin..k4, f34 k) + (∫ k in k4..k5, f45 k) + (∫ k in k5..k6, f56 k)
      else if kmin > k4 ∧ kmin < k5 then
        (∫ k in kmin..k5, f45 k) + (∫ k in k5..k6, f56 k)
      else if kmin < k6 then
        ∫ k in kmin..k6, f56 k
      else 0
    else
      if kmin < k1 then
        (∫ k in k1..k2, f12 k) + (if k2 ≠ k3 then ∫ k in k2..k3, f23 k else 0) +
          (∫ k in k3..k5, f35 k) + (∫ k in k5..k4, f54 k) + (∫ k in k4..k6, f46 k)
      else if kmin > k1 ∧ kmin < k2 then
        (∫ k in kmin..k2, f12 k) + (if k2 ≠ k3 then ∫ k in k2..k3, f23 k else 0) +
          (∫ k in k3..k5, f35 k) + (∫ k in k5..k4, f54 k) + (∫ k in k4..k6, f46 k)
      else if kmin > k2 ∧ kmin < k3 then
        (∫ k in kmin..k3, f23 k) + (∫ k in k3..k5, f35 k) +
          (∫ k in k5..k4, f54 k) + (∫ k in k4..k6, f46 k)
      else if kmin > k3 ∧ kmin < k5 then
        (∫ k in kmin..k5, f35 k) + (∫ k in k5..k4, f54 k) + (∫ k in k4..k6, f46 k)
      else if kmin > k5 ∧ kmin < k4 then
        (∫ k in kmin..k4, f54 k) + (∫ k in k4..k6, f46 k)
      else if kmin < k6 then
        ∫ k in kmin..k6, f46 k
      else 0

/-- Array form of `DoSFuncs.find_ck`: one `ck` value per star. -/
def find_ck {n : ℕ} (amin amax : ℝ) (smin smax : Fin n → ℝ)
    (Cmin pexp Rexp : ℝ) : Fin n → ℝ :=
  fun i => find_ck_star amin amax (smin i) (smax i) Cmin pexp Rexp

end

/-! ### Root bounds for the quartic -/

lemma quartic_continuous (k b : ℝ) : Continuous (quartic k b) := by
  unfold quartic
  fun_prop

lemma quartic_expand (k b z : ℝ) :
    quartic k b z = z ^ 3 * (z - 1 / Real.sqrt k) + b ^ 2 / (4 * k) := by
  unfold quartic
  ring

lemma quartic_at_zero (k b : ℝ) (hk : 0 < k) (hb : 0 < b) :
    0 < quartic k b 0 := by
  unfold quartic
  norm_num
  positivity

lemma quartic_pos_of_gt (k b z : ℝ) (hk : 0 < k) (hb : 0 < b)
    (hz : 1 / Real.sqrt k < z) : 0 < quartic k b z := by
  rw [quartic_expand]
  have hs : 0 < 1 / Real.sqrt k := by
    have := Real.sqrt_pos.mpr hk
    positivity
  have hz0 : 0 < z := hs.trans hz
  have h1 : 0 < z ^ 3 * (z - 1 / Real.sqrt k) :=
    mul_pos (by positivity) (sub_pos.mpr hz)
  have h2 : 0 < b ^ 2 / (4 * k) := by positivity
  linarith

lemma quartic_at_inv_sqrt (k b : ℝ) (hk : 0 < k) (hb : 0 < b) :
    0 < quartic k b (1 / Real.sqrt k) := by
  rw [quartic_expand, sub_self, mul_zero, zero_add]
  positivity

lemma root_exists_le (k b z : ℝ) (hk : 0 < k) (hb : 0 < b) (hz : 0 ≤ z)
    (hq : quartic k b z ≤ 0) : ∃ r ∈ rootSet k b, r ≤ z := by
  have h0 := quartic_at_zero k b hk hb
  have hsub := intermediate_value_Icc' hz ((quartic_continuous k b).continuousOn)
  have hmem : (0 : ℝ) ∈ Set.Icc (quartic k b z) (quartic k b 0) := ⟨hq, h0.le⟩
  obtain ⟨r, hr, hqr⟩ := hsub hmem
  exact ⟨r, ⟨hr.1, hqr⟩, hr.2⟩

lemma root_exists_ge (k b z : ℝ) (hk : 0 < k) (hb : 0 < b) (hz : 0 ≤ z)
    (hq : quartic k b z ≤ 0) : ∃ r ∈ rootSet k b, z ≤ r := by
  have hM := quartic_at_inv_sqrt k b hk hb
  have hzM : z ≤ 1 / Real.sqrt k := by
    by_contra hgt
    exact absurd hq (not_le.mpr (quartic_pos_of_gt k b z hk hb (not_le.mp hgt)))
  have hsub := intermediate_value_Icc hzM ((quartic_continuous k b).continuousOn)
  have hmem : (0 : ℝ) ∈ Set.Icc (quartic k b z) (quartic k b (1 / Real.sqrt k)) :=
    ⟨hq, hM.le⟩
  obtain ⟨r, hr, hqr⟩ := hsub hmem
  exact ⟨r, ⟨hz.trans hr.1, hqr⟩, hr.1⟩

lemma rootSet_bddBelow (k b : ℝ) : BddBelow (rootSet k b) :=
  ⟨0, fun _ hz => hz.1⟩

lemma rootSet_bddAbove (k b : ℝ) (hk : 0 < k) (hb : 0 < b) :
    BddAbove (rootSet k b) := by
  refine ⟨1 / Real.sqrt k, fun z hz => ?_⟩
  by_contra hgt
  exact absurd hz.2 (ne_of_gt (quartic_pos_of_gt k b z hk hb (not_le.mp hgt)))

lemma sol3_le_of (k b z : ℝ) (hk : 0 < k) (hb : 0 < b) (hz : 0 ≤ z)
    (hq : quartic k b z ≤ 0) : sol3 k b ≤ z := by
  obtain ⟨r, hr, hrz⟩ := root_exists_le k b z hk hb hz hq
  exact (csInf_le (rootSet_bddBelow k b) hr).trans hrz

lemma sol4_ge_of (k b z : ℝ) (hk : 0 < k) (hb : 0 < b) (hz : 0 ≤ z)
    (hq : quartic k b z ≤ 0) : z ≤ sol4 k b := by
  obtain ⟨r, hr, hrz⟩ := root_exists_ge k b z hk hb hz hq
  exact hrz.trans (le_csSup (rootSet_bddAbove k b hk hb) hr)

lemma sol3_ge_of (k b c : ℝ) (hne : (rootSet k b).Nonempty)
    (hpos : ∀ z, 0 ≤ z → z ≤ c → 0 < quartic k b z) : c ≤ sol3 k b := by
  refine le_csInf hne (fun z hz => ?_)
  by_contra hlt
  exact absurd hz.2 (ne_of_gt (hpos z hz.1 (le_of_lt (not_le.mp hlt))))

/-! ### C1: the piecewise case analysis goes wrong when `smax > (sqrt 3 / 2) * amax`

For the star `smin = 40/41`, `smax = 60/61`, `amax = 1` (so
`smax/amax > sqrt 3 / 2`), `find_ck` selects the `k4 >= k5` ordering and
integrates `f35 = anp/(2*sqrt k) * (amax - al2 k + au2 k - al1 k)` over
`[k3, k5]`.  At `k = 9/25` inside that interval the upper `smax`-root `al2`
exceeds `amax`, making the geometric factor negative. -/

lemma sqrt_nine_div_25 : Real.sqrt (9 / 25) = 3 / 5 := by
  rw [show (9 / 25 : ℝ) = (3 / 5) ^ 2 by norm_num,
    Real.sqrt_sq (by norm_num : (0 : ℝ) ≤ 3 / 5)]

lemma quartic_eval_smax (z : ℝ) :
    quartic (9 / 25) (60 / 61) z = z ^ 4 - 5 / 3 * z ^ 3 + 2500 / 3721 := by
  unfold quartic
  rw [sqrt_nine_div_25]
  ring

lemma quartic_eval_smin (z : ℝ) :
    quartic (9 / 25) (40 / 41) z = z ^ 4 - 5 / 3 * z ^ 3 + 10000 / 15129 := by
  unfold quartic
  rw [sqrt_nine_div_25]
  ring

lemma cos_arcsin_quarter (x w : ℝ) (hw : 0 ≤ w) (hx : 1 - x ^ 2 = w ^ 2) :
    Real.cos (0.5 * Real.arcsin x) ^ 4 = ((1 + w) / 2) ^ 2 := by
  have hl : -Real.pi ≤ Real.arcsin x := by
    have := Real.neg_pi_div_two_le_arcsin x
    have := Real.pi_pos
    linarith
  have hr : Real.arcsin x ≤ Real.pi := by
    have := Real.arcsin_le_pi_div_two x
    have := Real.pi_pos
    linarith
  rw [show (0.5 : ℝ) * Real.arcsin x = Real.arcsin x / 2 by ring,
    Real.cos_half hl hr, show (4 : ℕ) = 2 * 2 from rfl, pow_mul,
    Real.sq_sqrt (by linarith [Real.neg_one_le_cos (Real.arcsin x)] :
      (0 : ℝ) ≤ (1 + Real.cos (Real.arcsin x)) / 2),
    Real.cos_arcsin, hx, Real.sqrt_sq hw]

lemma kk3_eval : kk3 1 (60 / 61) = 1296 / 3721 := by
  unfold kk3
  rw [div_one, cos_arcsin_quarter (60 / 61) (11 / 61) (by norm_num) (by norm_num)]
  norm_num

lemma kk5_eval : kk5 1 (40 / 41) = 625 / 1681 := by
  unfold kk5
  rw [div_one, cos_arcsin_quarter (40 / 41) (9 / 41) (by norm_num) (by norm_num)]
  norm_num

lemma kk4_eval : kk4 (60 / 61) = 100467 / 230400 := by
  unfold kk4
  norm_num

lemma cos_pi_sub_arcsin_quarter (x w : ℝ) (hx0 : 0 ≤ x) (hw : 0 ≤ w)
    (hxw : 1 - x ^ 2 = w ^ 2) :
    Real.cos (0.5 * (Real.pi - Real.arcsin x)) ^ 4 = ((1 - w) / 2) ^ 2 := by
  have hy0 : 0 ≤ Real.arcsin x := Real.arcsin_nonneg.mpr hx0
  have hl : -Real.pi ≤ Real.pi - Real.arcsin x := by
    have := Real.arcsin_le_pi_div_two x
    have := Real.pi_pos
    linarith
  have hr : Real.pi - Real.arcsin x ≤ Real.pi := by linarith
  rw [show (0.5 : ℝ) * (Real.pi - Real.arcsin x) = (Real.pi - Real.arcsin x) / 2
      by ring,
    Real.cos_half hl hr, show (4 : ℕ) = 2 * 2 from rfl, pow_mul,
    Real.sq_sqrt (by
      linarith [Real.neg_one_le_cos (Real.pi - Real.arcsin x)] :
      (0 : ℝ) ≤ (1 + Real.cos (Real.pi - Real.arcsin x)) / 2),
    Real.cos_pi_sub, Real.cos_arcsin, hxw, Real.sqrt_sq hw]
  ring

lemma kk1_eval : kk1 1 (40 / 41) = 256 / 1681 := by
  unfold kk1
  rw [div_one, cos_pi_sub_arcsin_quarter (40 / 41) (9 / 41) (by norm_num)
    (by norm_num) (by norm_num)]
  norm_num

lemma anp_pos_failing_star : 0 < anpVal (1 / 10) 1 (40 / 41) (60 / 61) := by
  have hw2 : Real.sqrt (1 - ((60 : ℝ) / 61) ^ 2) = 11 / 61 := by
    rw [show (1 : ℝ) - (60 / 61) ^ 2 = (11 / 61) ^ 2 by norm_num,
      Real.sqrt_sq (by norm_num : (0 : ℝ) ≤ 11 / 61)]
  have hw1 : Real.sqrt (1 - ((40 : ℝ) / 41) ^ 2) = 9 / 41 := by
    rw [show (1 : ℝ) - (40 / 41) ^ 2 = (9 / 41) ^ 2 by norm_num,
      Real.sqrt_sq (by norm_num : (0 : ℝ) ≤ 9 / 41)]
  have han : 0 < anVal (1 / 10) 1 := by
    unfold anVal
    rw [show (1 : ℝ) / (1 / 10) = 10 by norm_num]
    have h10 := Real.log_pos (by norm_num : (1 : ℝ) < 10)
    positivity
  have hlog : Real.log ((5 : ℝ) / 6) - Real.log ((4 : ℝ) / 5) =
      Real.log ((25 : ℝ) / 24) := by
    rw [← Real.log_div (by norm_num) (by norm_num)]
    norm_num
  have hlb : (1 : ℝ) / 25 ≤ Real.log ((25 : ℝ) / 24) := by
    have h1 := Real.log_le_sub_one_of_pos (show (0 : ℝ) < 24 / 25 by norm_num)
    have h2 : Real.log ((24 : ℝ) / 25) = -Real.log ((25 : ℝ) / 24) := by
      rw [show (24 : ℝ) / 25 = ((25 : ℝ) / 24)⁻¹ by norm_num, Real.log_inv]
    linarith
  have hcg : 0 < cgVal (1 / 10) 1 (40 / 41) (60 / 61) := by
    unfold cgVal
    simp only [div_one]
    rw [hw2, hw1,
      show (60 : ℝ) / 61 / ((11 : ℝ) / 61 + 1) = 5 / 6 by norm_num,
      show (40 : ℝ) / 41 / ((9 : ℝ) / 41 + 1) = 4 / 5 by norm_num]
    refine mul_pos han ?_
    linarith [hlog, hlb]
  exact div_pos han hcg

/-- C1: counter to the claim, `find_ck`'s piecewise integration produces
negative contributions (and a negative total ck) for stars with
`smax/amax > sqrt 3 / 2`.  For the star `amin = 1/10`, `amax = 1`,
`smin = 40/41`, `smax = 60/61` with `kmin = Cmin/(pexp*Rexp^2) = 1/10`:
`kmin` is below every breakpoint, the star is in the `k4 >= k5` ordering,
`k = 9/25` lies inside the `f35` integration interval `(k3, k5)`, and there
the geometric factor `amax - al2 + au2 - al1` of the `f35` integrand is at
most `-3/10` (the upper `smax`-root `al2 = sol4` exceeds `amax = 1`), while
the prefactor `anp/(2*sqrt k)` is positive — so the `f35` integrand of
`find_ck_star` is negative inside its integration range. -/
theorem find_ck_corner_regime_bug :
    (1 : ℝ) / 10 < kk1 1 (40 / 41) ∧
    kk5 1 (40 / 41) ≤ kk4 (60 / 61) ∧
    kk3 1 (60 / 61) < 9 / 25 ∧ (9 : ℝ) / 25 < kk5 1 (40 / 41) ∧
    1 - sol4 (9 / 25) (60 / 61) + sol3 (9 / 25) (60 / 61) -
      sol3 (9 / 25) (40 / 41) ≤ -(3 / 10) ∧
    anpVal (1 / 10) 1 (40 / 41) (60 / 61) / (2 * Real.sqrt (9 / 25)) *
      (1 - sol4 (9 / 25) (60 / 61) + sol3 (9 / 25) (60 / 61) -
        sol3 (9 / 25) (40 / 41)) < 0 := by
  have hbr : 1 - sol4 (9 / 25) (60 / 61) + sol3 (9 / 25) (60 / 61) -
      sol3 (9 / 25) (40 / 41) ≤ -(3 / 10) := by
    have hk : (0 : ℝ) < 9 / 25 := by norm_num
    have hbmax : (0 : ℝ) < 60 / 61 := by norm_num
    have hbmin : (0 : ℝ) < 40 / 41 := by norm_num
    have h_au2 : sol3 (9 / 25) (60 / 61) ≤ 21 / 20 :=
      sol3_le_of _ _ _ hk hbmax (by norm_num)
        (by rw [quartic_eval_smax]; norm_num)
    have h_al2 : (7 : ℝ) / 5 ≤ sol4 (9 / 25) (60 / 61) :=
      sol4_ge_of _ _ _ hk hbmax (by norm_num)
        (by rw [quartic_eval_smax]; norm_num)
    have hne : (rootSet (9 / 25) (40 / 41)).Nonempty := by
      obtain ⟨r, hr, -⟩ := root_exists_le (9 / 25) (40 / 41) (5 / 4) hk hbmin
        (by norm_num) (by rw [quartic_eval_smin]; norm_num)
      exact ⟨r, hr⟩
    have h_al1 : (19 : ℝ) / 20 ≤ sol3 (9 / 25) (40 / 41) := by
      refine sol3_ge_of _ _ _ hne (fun z hz0 hzc => ?_)
      rw [quartic_eval_smin]
      have hzc' : (0 : ℝ) ≤ 19 / 20 - z := sub_nonneg.mpr hzc
      nlinarith [mul_nonneg hzc' hz0, mul_nonneg (mul_nonneg hzc' hz0) hz0,
        mul_nonneg hzc' (mul_nonneg hz0 hz0), sq_nonneg z,
        mul_nonneg (mul_nonneg hz0 hz0) hz0, mul_nonneg hzc' hzc']
    linarith
  refine ⟨?_, ?_, ?_, ?_, hbr, ?_⟩
  · rw [kk1_eval]
    norm_num
  · rw [kk5_eval, kk4_eval]
    norm_num
  · rw [kk3_eval]
    norm_num
  · rw [kk5_eval]
    norm_num
  · have hpref : 0 < anpVal (1 / 10) 1 (40 / 41) (60 / 61) /
        (2 * Real.sqrt (9 / 25)) := by
      rw [sqrt_nine_div_25]
      exact div_pos anp_pos_failing_star (by norm_num)
    exact mul_neg_of_pos_of_neg hpref (lt_of_le_of_lt hbr (by norm_num))

end DoS
